import Mathlib

/-!
Verification of the handoff-graph / turn-loop design of the
Agent-Orchestration-Patterns repository.

The repository's notebooks wire together the external framework's
`OrchestrationHandoffs` and `HandoffOrchestration` classes; the graph and
turn-loop logic itself is not part of the repository's sources, so those
operations are modelled here from the specification.  The concrete handoff
graph built in `handoff_pattern.ipynb` and the notebook's
`simulated_human_response_function` are embedded directly from the source.
-/

/-- A directed handoff edge: (source agent name, target agent name,
condition description string), as in the spec's data model. -/
structure HandoffEdge where
  source : String
  target : String
  condition : String
deriving Repr, DecidableEq

/-- Modelled from the spec: the Handoff Graph (the framework class
`OrchestrationHandoffs` is not in the repository sources).  It holds the
registry of agents (name, description) and the list of edges in insertion
order. -/
structure HandoffGraph where
  agents : List (String × String)
  edges : List HandoffEdge
deriving Repr, DecidableEq

/-- Graph construction-time errors from the spec's error taxonomy. -/
inductive GraphError
  | DuplicateAgentError
  | UnknownAgentError
deriving Repr, DecidableEq

/-- An agent name is registered when it appears in the agent registry. -/
def HandoffGraph.registered (g : HandoffGraph) (name : String) : Bool :=
  g.agents.any (fun a => a.1 == name)

/-- Modelled from the spec: `register(agentName, description)` fails with
`DuplicateAgentError` if the name is already present. -/
def HandoffGraph.register (g : HandoffGraph) (name description : String) :
    Except GraphError HandoffGraph :=
  if g.registered name then
    .error .DuplicateAgentError
  else
    .ok { g with agents := g.agents ++ [(name, description)] }

/-- Modelled from the spec: `addEdge(source, target, condition)` fails with
`UnknownAgentError` if either endpoint is unregistered; otherwise the edge is
appended (insertion order preserved). -/
def HandoffGraph.addEdge (g : HandoffGraph) (source target condition : String) :
    Except GraphError HandoffGraph :=
  if g.registered source && g.registered target then
    .ok { g with edges := g.edges ++ [⟨source, target, condition⟩] }
  else
    .error .UnknownAgentError

/-- Modelled from the spec: `addMany(source, {target: condition, ...})`, the
convenience batch form of `addEdge` with the same failure mode per entry. -/
def HandoffGraph.addMany (g : HandoffGraph) (source : String)
    (targets : List (String × String)) : Except GraphError HandoffGraph :=
  targets.foldlM (fun acc tc => acc.addEdge source tc.1 tc.2) g

/-- Modelled from the spec: `edgesFrom(agentName)` returns the ordered
sequence of edges whose source is the given agent. -/
def HandoffGraph.edgesFrom (g : HandoffGraph) (name : String) : List HandoffEdge :=
  g.edges.filter (fun e => e.source == name)

/-- The empty graph. -/
def HandoffGraph.empty : HandoffGraph := ⟨[], []⟩

/-- One hop along a graph edge. -/
def HandoffGraph.stepsTo (g : HandoffGraph) (a b : String) : Bool :=
  g.edges.any (fun e => e.source == a && e.target == b)

/-- Nonempty-path reachability along graph edges. -/
inductive HandoffGraph.Reach (g : HandoffGraph) : String → String → Prop
  | single {a b : String} : g.stepsTo a b = true → HandoffGraph.Reach g a b
  | cons {a b c : String} : g.stepsTo a b = true → HandoffGraph.Reach g b c →
      HandoffGraph.Reach g a c

/-- The handoff graph of `handoff_pattern.ipynb`: the four agents (registered
in the order the notebook defines them, with the notebook's descriptions),
then the `add_many` call from the triage agent and the three `add` calls back
to it, with the notebook's condition strings. -/
def notebookHandoffs : Except GraphError HandoffGraph := do
  let g ← HandoffGraph.empty.register "TriageAgent"
      "A customer support agent that triages issues."
  let g ← g.register "RefundAgent"
      "A customer support agent that handles refunds."
  let g ← g.register "OrderStatusAgent"
      "A customer support agent that checks order status."
  let g ← g.register "OrderReturnAgent"
      "A customer support agent that handles order returns."
  let g ← g.addMany "TriageAgent"
      [("RefundAgent", "Transfer to this agent if the issue is refund related"),
       ("OrderStatusAgent", "Transfer to this agent if the issue is order status related"),
       ("OrderReturnAgent", "Transfer to this agent if the issue is order return related")]
  let g ← g.addEdge "RefundAgent" "TriageAgent"
      "Transfer to this agent if the issue is not refund related"
  let g ← g.addEdge "OrderStatusAgent" "TriageAgent"
      "Transfer to this agent if the issue is not order status related"
  let g ← g.addEdge "OrderReturnAgent" "TriageAgent"
      "Transfer to this agent if the issue is not order return related"
  pure g

/-- The notebook's `handoffs` value (the successful result of the chained
construction). -/
def handoffs : HandoffGraph := notebookHandoffs.toOption.getD HandoffGraph.empty

/-- The roles of `ChatMessageContent` used by the notebook. -/
inductive AuthorRole
  | USER
  | ASSISTANT
deriving Repr, DecidableEq

/-- The notebook's `ChatMessageContent(role=..., content=...)`. -/
structure ChatMessageContent where
  role : AuthorRole
  content : String
deriving Repr, DecidableEq

/-- The notebook's predefined `responses` queue for the simulated
conversation. -/
def responses : List String :=
  ["I\x27d like to track the status of my order",
   "My order ID is 123",
   "I want to return another order of mine",
   "Order ID 321",
   "Broken item",
   "No, bye"]

/-- The notebook's `simulated_human_response_function`, with the mutable
`responses` deque made explicit: it pops the front of the queue while it is
non-empty and answers the fixed message "No, bye" once the queue is
exhausted.  It always returns a `ChatMessageContent` with role USER. -/
def simulated_human_response_function (queue : List String) :
    ChatMessageContent × List String :=
  match queue with
  | r :: rest => (⟨AuthorRole.USER, r⟩, rest)
  | [] => (⟨AuthorRole.USER, "No, bye"⟩, [])

/-- A turn of the transcript: (speaker name, message text, sequence
number), as in the spec's data model. -/
structure ConversationTurn where
  speaker : String
  text : String
  seq : Nat
deriving Repr, DecidableEq

/-- The three states of the spec's turn-loop state machine. -/
inductive LoopState
  | awaitingAgentResponse
  | awaitingHumanInput
  | terminated
deriving Repr, DecidableEq

/-- Runtime errors of the turn loop from the spec's error taxonomy. -/
inductive SessionError
  | IllegalHandoffError
deriving Repr, DecidableEq

/-- Modelled from the spec: the Agent Stub capability — given the current
agent's name and the transcript so far, produce a response message and
optionally nominate a handoff target by name.  Deterministic by
construction. -/
def AgentStub : Type := String → List ConversationTurn → String × Option String

/-- Modelled from the spec: the observer/callback interface, invoked once
per appended transcript turn with (speaker name, message text); `false`
models a callback invocation that fails (raises). -/
def ObserverCallback : Type := String → String → Bool

/-- Modelled from the spec: the OrchestrationSession — current active
agent, append-only transcript, state machine state, plus the counters and
the log of observer-callback results that the testable properties speak
about. -/
structure Session where
  current : String
  transcript : List ConversationTurn
  loopState : LoopState
  nAgentResponses : Nat
  nHumanInputs : Nat
  cbResults : List Bool
deriving Repr, DecidableEq

/-- Append a turn to the transcript (sequence number = position), invoking
the observer callback synchronously; the callback's result is recorded but
never consulted. -/
def appendTurn (cb : ObserverCallback) (s : Session) (speaker text : String) :
    Session :=
  { s with
    transcript := s.transcript ++ [⟨speaker, text, s.transcript.length⟩],
    cbResults := s.cbResults ++ [cb speaker text] }

/-- Whether `t` is a legal handoff target for `current`: it is the target of
some edge in `edgesFrom current`. -/
def legalTarget (g : HandoffGraph) (current t : String) : Bool :=
  (g.edgesFrom current).any (fun e => e.target == t)

/-- Modelled from the spec: the controller's transition on an agent
response.  The agent's message is appended to the transcript before any
transition decision; a nominated target outside `edgesFrom(current)` fails
the session with `IllegalHandoffError` (the error carries the session, whose
transcript includes the offending turn); a legal target becomes the current
agent with the state unchanged; no target moves the state to
`AWAITING_HUMAN_INPUT`. -/
def agentStep (g : HandoffGraph) (stub : AgentStub) (cb : ObserverCallback)
    (s : Session) : Except Session Session :=
  let r := stub s.current s.transcript
  let s1 := { appendTurn cb s s.current r.1 with
              nAgentResponses := s.nAgentResponses + 1 }
  match r.2 with
  | none => .ok { s1 with loopState := .awaitingHumanInput }
  | some t =>
    if legalTarget g s.current t then
      .ok { s1 with current := t }
    else
      .error s1

/-- Modelled from the spec: the controller's transition on human input.
The input source is a finite sequence whose entries are either a message
(`some`) or the explicit end-of-conversation sentinel (`none`); exhaustion of
the sequence is likewise treated as end-of-conversation.  A message is
appended as a transcript turn and the same current agent resumes. -/
def humanStep (cb : ObserverCallback) (s : Session)
    (inputs : List (Option String)) : Session × List (Option String) :=
  match inputs with
  | [] => ({ s with loopState := .terminated }, [])
  | none :: rest => ({ s with loopState := .terminated }, rest)
  | some msg :: rest =>
    ({ appendTurn cb s "User" msg with
       nHumanInputs := s.nHumanInputs + 1,
       loopState := .awaitingAgentResponse }, rest)

/-- Outcome of driving the turn loop with a given amount of fuel. -/
inductive RunResult
  | finished (s : Session)
  | failed (e : SessionError) (s : Session)
  | outOfFuel (s : Session) (remaining : List (Option String))
deriving Repr, DecidableEq

/-- Modelled from the spec: the turn loop, driven for at most `fuel` steps
(the spec's loop has no bound; every claim below is about runs that do
terminate within their fuel). -/
def run (g : HandoffGraph) (stub : AgentStub) (cb : ObserverCallback) :
    Nat → Session → List (Option String) → RunResult
  | 0, s, inputs => .outOfFuel s inputs
  | fuel + 1, s, inputs =>
    match s.loopState with
    | .terminated => .finished s
    | .awaitingAgentResponse =>
      match agentStep g stub cb s with
      | .error s1 => .failed .IllegalHandoffError s1
      | .ok s1 => run g stub cb fuel s1 inputs
    | .awaitingHumanInput =>
      let p := humanStep cb s inputs
      run g stub cb fuel p.1 p.2

/-- The initial session: entry agent, empty transcript, awaiting the first
agent response. -/
def initSession (entry : String) : Session :=
  ⟨entry, [], .awaitingAgentResponse, 0, 0, []⟩

/-- The session carried by a run outcome. -/
def RunResult.session : RunResult → Session
  | .finished s => s
  | .failed _ s => s
  | .outOfFuel s _ => s

/-- The transcript carried by a run outcome. -/
def RunResult.transcript (r : RunResult) : List ConversationTurn :=
  r.session.transcript

/-- A session with its callback-result log erased (everything the
controller's progression consists of). -/
def Session.dropCb (s : Session) : Session := { s with cbResults := [] }

/-- A run outcome with its callback-result log erased. -/
def RunResult.dropCb : RunResult → RunResult
  | .finished s => .finished s.dropCb
  | .failed e s => .failed e s.dropCb
  | .outOfFuel s rest => .outOfFuel s.dropCb rest

/-- A tiny graph used by the witnesses: one registered agent, no edges. -/
def sampleGraph : HandoffGraph := ⟨[("A", "demo agent")], []⟩

/-! ### Turn-loop fixtures and invariants -/

/-- The transcript-count invariant of the spec's testable properties. -/
def countInv (s : Session) : Prop :=
  s.transcript.length = s.nAgentResponses + s.nHumanInputs

/-- The callback log of a session records exactly one invocation per
transcript turn, in order, on (speaker, text). -/
def cbInv (cb : ObserverCallback) (s : Session) : Prop :=
  s.cbResults = s.transcript.map (fun t => cb t.speaker t.text)

/-- Erase callback results on either side of an `agentStep` outcome. -/
def exceptDropCb : Except Session Session → Except Session Session
  | .ok s => .ok s.dropCb
  | .error s => .error s.dropCb

/-- A two-agent graph used by the run witnesses: entry agent "A" with one
edge to "B". -/
def wGraph : HandoffGraph :=
  ⟨[("A", "entry agent"), ("B", "specialist agent")], [⟨"A", "B", "cond"⟩]⟩

/-- A deterministic stub for the witnesses: "A" hands off to "B"; "B"
requests human input. -/
def wStub : AgentStub :=
  fun name _ => if name = "A" then ("hello from A", some "B") else ("hello from B", none)

/-- A stub that nominates a target outside the graph. -/
def wStubIllegal : AgentStub := fun _ _ => ("rogue message", some "Z")

/-- A callback that always succeeds. -/
def wCb : ObserverCallback := fun _ _ => true

/-- A session awaiting human input, for the human-step witness. -/
def wHumanSession : Session := ⟨"B", [], .awaitingHumanInput, 0, 0, []⟩

/-- The final session of the two-agent witness run: A hands off to B, B asks
for input, the input source is exhausted, the loop terminates. -/
def wFinal : Session :=
  ⟨"B", [⟨"A", "hello from A", 0⟩, ⟨"B", "hello from B", 1⟩],
   .terminated, 2, 0, [true, true]⟩

/-! ### Graph lemmas -/

theorem addEdge_ok_agents (g g' : HandoffGraph) (s t c : String)
    (h : g.addEdge s t c = .ok g') : g'.agents = g.agents := by
  unfold HandoffGraph.addEdge at h
  split at h
  · cases h; rfl
  · cases h

theorem addEdge_error_eq (g : HandoffGraph) (s t c : String) (e : GraphError)
    (h : g.addEdge s t c = .error e) : e = .UnknownAgentError := by
  unfold HandoffGraph.addEdge at h
  split at h
  · cases h
  · cases h; rfl

theorem addEdge_unregistered (g : HandoffGraph) (source target condition : String)
    (h : g.registered source = false ∨ g.registered target = false) :
    g.addEdge source target condition = .error .UnknownAgentError := by
  unfold HandoffGraph.addEdge
  rcases h with h | h <;> simp [h]

theorem addMany_unregistered (source target condition : String) :
    ∀ (targets : List (String × String)) (g : HandoffGraph),
      (g.registered source = false ∨ g.registered target = false) →
      (target, condition) ∈ targets →
      g.addMany source targets = .error .UnknownAgentError := by
  intro targets
  induction targets with
  | nil => intro g _ hmem; cases hmem
  | cons hd rest ih =>
    obtain ⟨t1, c1⟩ := hd
    intro g hreg hmem
    simp only [HandoffGraph.addMany, List.foldlM_cons]
    rcases List.mem_cons.mp hmem with hmem | hmem
    · rw [Prod.mk.injEq] at hmem
      obtain ⟨ht, hc⟩ := hmem
      subst ht; subst hc
      rw [addEdge_unregistered g source target condition hreg]
      rfl
    · cases hstep : g.addEdge source t1 c1 with
      | error e =>
        have he := addEdge_error_eq g source t1 c1 e hstep
        subst he
        rfl
      | ok g' =>
        have hagents := addEdge_ok_agents g g' source t1 c1 hstep
        have hreg' : g'.registered source = false ∨ g'.registered target = false := by
          unfold HandoffGraph.registered
          rw [hagents]
          exact hreg
        have hres := ih g' hreg' hmem
        rw [HandoffGraph.addMany] at hres
        exact hres


/-- C2: adding an edge (also as an entry of the batch form `addMany`) whose
source or target is unregistered fails with `UnknownAgentError`; the call
returns the error and no graph, so no partial edge is added. -/
theorem addEdge_unregistered_fails (g : HandoffGraph)
    (source target condition : String) (targets : List (String × String))
    (h : g.registered source = false ∨ g.registered target = false) :
    g.addEdge source target condition = .error .UnknownAgentError ∧
    ((target, condition) ∈ targets →
      g.addMany source targets = .error .UnknownAgentError) ∧
    (∀ g', g.addEdge source target condition ≠ .ok g') := by
  refine ⟨addEdge_unregistered g source target condition h, ?_, ?_⟩
  · intro hmem
    exact addMany_unregistered source target condition targets g h hmem
  · intro g' hok
    rw [addEdge_unregistered g source target condition h] at hok
    cases hok

theorem addEdge_unregistered_fails_witness :
    (sampleGraph.registered "A" = false ∨ sampleGraph.registered "B" = false) ∧
    (sampleGraph.addEdge "A" "B" "cond" = .error .UnknownAgentError ∧
     (("B", "cond") ∈ [("B", "cond")] →
       sampleGraph.addMany "A" [("B", "cond")] = .error .UnknownAgentError) ∧
     (∀ g', sampleGraph.addEdge "A" "B" "cond" ≠ .ok g')) :=
  ⟨Or.inr (by decide),
   addEdge_unregistered_fails sampleGraph "A" "B" "cond" [("B", "cond")]
     (Or.inr (by decide))⟩

/-- C3: for a registered agent `a`, `edgesFrom a` contains exactly the edges
whose source is `a`, as a sublist of the edge list (so in insertion order);
it is empty when `a` has no outbound edge, and an `addEdge` from `a` appends
the new edge at its end. -/
theorem edgesFrom_exact (g : HandoffGraph) (a : String)
    (_h : g.registered a = true) :
    (∀ e ∈ g.edgesFrom a, e.source = a) ∧
    List.Sublist (g.edgesFrom a) g.edges ∧
    (∀ e ∈ g.edges, e.source = a → e ∈ g.edgesFrom a) ∧
    ((∀ e ∈ g.edges, e.source ≠ a) → g.edgesFrom a = []) ∧
    (∀ t c g', g.addEdge a t c = .ok g' →
      g'.edgesFrom a = g.edgesFrom a ++ [⟨a, t, c⟩]) := by
  refine ⟨?_, ?_, ?_, ?_, ?_⟩
  · intro e he
    have := (List.mem_filter.mp he).2
    exact eq_of_beq this
  · exact List.filter_sublist g.edges
  · intro e he hsrc
    exact List.mem_filter.mpr ⟨he, by simp [hsrc]⟩
  · intro hnone
    refine List.filter_eq_nil_iff.mpr ?_
    intro e he
    simpa using hnone e he
  · intro t c g' hok
    unfold HandoffGraph.addEdge at hok
    split at hok
    · cases hok
      unfold HandoffGraph.edgesFrom
      simp
    · cases hok

theorem edgesFrom_exact_witness :
    sampleGraph.registered "A" = true ∧
    ((∀ e ∈ sampleGraph.edgesFrom "A", e.source = "A") ∧
     List.Sublist (sampleGraph.edgesFrom "A") sampleGraph.edges ∧
     (∀ e ∈ sampleGraph.edges, e.source = "A" → e ∈ sampleGraph.edgesFrom "A") ∧
     ((∀ e ∈ sampleGraph.edges, e.source ≠ "A") → sampleGraph.edgesFrom "A" = []) ∧
     (∀ t c g', sampleGraph.addEdge "A" t c = .ok g' →
       g'.edgesFrom "A" = sampleGraph.edgesFrom "A" ++ [⟨"A", t, c⟩])) :=
  ⟨by decide, edgesFrom_exact sampleGraph "A" (by decide)⟩

/-- C9: in the notebook's handoff graph the registry is exactly the four
agents, every registered agent has at least one outbound edge, TriageAgent
has exactly the three edges to the specialists, each specialist has exactly
one edge back to TriageAgent, the graph is cyclic (a nonempty path from
TriageAgent to itself) and TriageAgent is reachable from every agent. -/
theorem notebook_graph_shape :
    handoffs.agents.map Prod.fst =
      ["TriageAgent", "RefundAgent", "OrderStatusAgent", "OrderReturnAgent"] ∧
    handoffs.agents.all (fun a => !(handoffs.edgesFrom a.1).isEmpty) = true ∧
    handoffs.edgesFrom "TriageAgent" =
      [⟨"TriageAgent", "RefundAgent",
        "Transfer to this agent if the issue is refund related"⟩,
       ⟨"TriageAgent", "OrderStatusAgent",
        "Transfer to this agent if the issue is order status related"⟩,
       ⟨"TriageAgent", "OrderReturnAgent",
        "Transfer to this agent if the issue is order return related"⟩] ∧
    handoffs.edgesFrom "RefundAgent" =
      [⟨"RefundAgent", "TriageAgent",
        "Transfer to this agent if the issue is not refund related"⟩] ∧
    handoffs.edgesFrom "OrderStatusAgent" =
      [⟨"OrderStatusAgent", "TriageAgent",
        "Transfer to this agent if the issue is not order status related"⟩] ∧
    handoffs.edgesFrom "OrderReturnAgent" =
      [⟨"OrderReturnAgent", "TriageAgent",
        "Transfer to this agent if the issue is not order return related"⟩] ∧
    handoffs.Reach "TriageAgent" "TriageAgent" ∧
    handoffs.Reach "RefundAgent" "TriageAgent" ∧
    handoffs.Reach "OrderStatusAgent" "TriageAgent" ∧
    handoffs.Reach "OrderReturnAgent" "TriageAgent" := by
  refine ⟨by decide, by decide, by decide, by decide, by decide, by decide,
    ?_, ?_, ?_, ?_⟩
  · exact .cons (a := "TriageAgent") (b := "RefundAgent") (by decide)
      (.single (by decide))
  · exact .single (by decide)
  · exact .single (by decide)
  · exact .single (by decide)

/-- C10: the notebook's `simulated_human_response_function` is total and
never signals an end-of-conversation sentinel: for every queue it returns a
`ChatMessageContent` with role USER whose content is the front of the queue
while the queue is non-empty and the fixed message "No, bye" once the queue
is exhausted, and it consumes at most the front of the queue. -/
theorem simulated_human_total (queue : List String) :
    (simulated_human_response_function queue).1.role = AuthorRole.USER ∧
    (simulated_human_response_function queue).1.content = queue.headD "No, bye" ∧
    (simulated_human_response_function queue).2 = queue.tail := by
  cases queue <;> simp [simulated_human_response_function]

theorem agentStep_illegal (g : HandoffGraph) (stub : AgentStub)
    (cb : ObserverCallback) (s : Session) (msg t : String)
    (hstub : stub s.current s.transcript = (msg, some t))
    (hill : legalTarget g s.current t = false) :
    agentStep g stub cb s = .error
      { appendTurn cb s s.current msg with
        nAgentResponses := s.nAgentResponses + 1 } := by
  simp only [agentStep, hstub, hill]
  rfl

/-- C1: when the current agent nominates a handoff target that is not among
the targets of `edgesFrom(current)`, the run fails with
`IllegalHandoffError` and the transcript at failure is everything recorded
so far plus the offending agent turn. -/
theorem illegal_handoff_fails (g : HandoffGraph) (stub : AgentStub)
    (cb : ObserverCallback) (fuel : Nat) (s : Session)
    (inputs : List (Option String)) (msg t : String)
    (hstate : s.loopState = .awaitingAgentResponse)
    (hstub : stub s.current s.transcript = (msg, some t))
    (hill : legalTarget g s.current t = false) :
    ∃ s1, run g stub cb (fuel + 1) s inputs = .failed .IllegalHandoffError s1 ∧
      s1.transcript = s.transcript ++ [⟨s.current, msg, s.transcript.length⟩] := by
  refine ⟨{ appendTurn cb s s.current msg with
            nAgentResponses := s.nAgentResponses + 1 }, ?_, ?_⟩
  · simp only [run, hstate, agentStep_illegal g stub cb s msg t hstub hill]
  · simp [appendTurn]

theorem illegal_handoff_fails_witness :
    ((initSession "A").loopState = .awaitingAgentResponse ∧
     wStubIllegal (initSession "A").current (initSession "A").transcript =
       ("rogue message", some "Z") ∧
     legalTarget wGraph (initSession "A").current "Z" = false) ∧
    ∃ s1, run wGraph wStubIllegal wCb (0 + 1) (initSession "A") [] =
        .failed .IllegalHandoffError s1 ∧
      s1.transcript = (initSession "A").transcript ++
        [⟨(initSession "A").current, "rogue message",
          (initSession "A").transcript.length⟩] :=
  ⟨⟨rfl, rfl, by decide⟩,
   illegal_handoff_fails wGraph wStubIllegal wCb 0 (initSession "A") []
     "rogue message" "Z" rfl rfl (by decide)⟩

/-- C5: a controller step in state `AWAITING_AGENT_RESPONSE`: on a legal
nominated target the current agent becomes the target, the state remains
`AWAITING_AGENT_RESPONSE` and no human turn is consumed; on no nominated
target the state moves to `AWAITING_HUMAN_INPUT` with the current agent
unchanged.  In both cases the response is appended as a transcript turn. -/
theorem agent_response_transition (g : HandoffGraph) (stub : AgentStub)
    (cb : ObserverCallback) (s : Session) (msg : String)
    (hstate : s.loopState = .awaitingAgentResponse) :
    (∀ t, stub s.current s.transcript = (msg, some t) →
      legalTarget g s.current t = true →
      ∃ s1, agentStep g stub cb s = .ok s1 ∧ s1.current = t ∧
        s1.loopState = .awaitingAgentResponse ∧
        s1.nHumanInputs = s.nHumanInputs ∧
        s1.transcript = s.transcript ++ [⟨s.current, msg, s.transcript.length⟩]) ∧
    (stub s.current s.transcript = (msg, none) →
      ∃ s1, agentStep g stub cb s = .ok s1 ∧ s1.current = s.current ∧
        s1.loopState = .awaitingHumanInput ∧
        s1.nHumanInputs = s.nHumanInputs ∧
        s1.transcript = s.transcript ++ [⟨s.current, msg, s.transcript.length⟩]) := by
  constructor
  · intro t hstub hleg
    refine ⟨{ appendTurn cb s s.current msg with
              nAgentResponses := s.nAgentResponses + 1, current := t },
            ?_, rfl, ?_, ?_, ?_⟩
    · simp only [agentStep, hstub, hleg]
      rfl
    · simpa [appendTurn] using hstate
    · simp [appendTurn]
    · simp [appendTurn]
  · intro hstub
    refine ⟨{ appendTurn cb s s.current msg with
              nAgentResponses := s.nAgentResponses + 1,
              loopState := .awaitingHumanInput },
            ?_, ?_, rfl, ?_, ?_⟩
    · simp only [agentStep, hstub]
    · simp [appendTurn]
    · simp [appendTurn]
    · simp [appendTurn]

theorem agent_response_transition_witness :
    (initSession "A").loopState = .awaitingAgentResponse ∧
    ((∀ t, wStub (initSession "A").current (initSession "A").transcript =
        ("hello from A", some t) →
      legalTarget wGraph (initSession "A").current t = true →
      ∃ s1, agentStep wGraph wStub wCb (initSession "A") = .ok s1 ∧
        s1.current = t ∧ s1.loopState = .awaitingAgentResponse ∧
        s1.nHumanInputs = (initSession "A").nHumanInputs ∧
        s1.transcript = (initSession "A").transcript ++
          [⟨(initSession "A").current, "hello from A",
            (initSession "A").transcript.length⟩]) ∧
     (wStub (initSession "A").current (initSession "A").transcript =
        ("hello from A", none) →
      ∃ s1, agentStep wGraph wStub wCb (initSession "A") = .ok s1 ∧
        s1.current = (initSession "A").current ∧
        s1.loopState = .awaitingHumanInput ∧
        s1.nHumanInputs = (initSession "A").nHumanInputs ∧
        s1.transcript = (initSession "A").transcript ++
          [⟨(initSession "A").current, "hello from A",
            (initSession "A").transcript.length⟩])) :=
  ⟨rfl, agent_response_transition wGraph wStub wCb (initSession "A")
    "hello from A" rfl⟩

/-- C6: a controller step in state `AWAITING_HUMAN_INPUT`: an explicit
end-of-conversation sentinel or exhaustion of the input sequence moves the
state to `TERMINATED`; otherwise the input is appended as a transcript turn
and the state returns to `AWAITING_AGENT_RESPONSE` with the same current
agent. -/
theorem human_input_transition (cb : ObserverCallback) (s : Session)
    (inputs : List (Option String))
    (_hstate : s.loopState = .awaitingHumanInput) :
    ((inputs = [] ∨ inputs.head? = some none) →
      (humanStep cb s inputs).1.loopState = .terminated) ∧
    (∀ msg rest, inputs = some msg :: rest →
      (humanStep cb s inputs).1.loopState = .awaitingAgentResponse ∧
      (humanStep cb s inputs).1.current = s.current ∧
      (humanStep cb s inputs).1.transcript =
        s.transcript ++ [⟨"User", msg, s.transcript.length⟩] ∧
      (humanStep cb s inputs).2 = rest) := by
  constructor
  · rintro (h | h)
    · subst h; rfl
    · cases inputs with
      | nil => cases h
      | cons hd rest =>
        simp only [List.head?_cons, Option.some.injEq] at h
        subst h
        rfl
  · intro msg rest h
    subst h
    exact ⟨rfl, rfl, by simp [humanStep, appendTurn], rfl⟩

theorem human_input_transition_witness :
    wHumanSession.loopState = .awaitingHumanInput ∧
    ((([some "hi"] : List (Option String)) = [] ∨
        ([some "hi"] : List (Option String)).head? = some none →
      (humanStep wCb wHumanSession [some "hi"]).1.loopState = .terminated) ∧
     (∀ msg rest, ([some "hi"] : List (Option String)) = some msg :: rest →
      (humanStep wCb wHumanSession [some "hi"]).1.loopState =
        .awaitingAgentResponse ∧
      (humanStep wCb wHumanSession [some "hi"]).1.current =
        wHumanSession.current ∧
      (humanStep wCb wHumanSession [some "hi"]).1.transcript =
        wHumanSession.transcript ++
          [⟨"User", msg, wHumanSession.transcript.length⟩] ∧
      (humanStep wCb wHumanSession [some "hi"]).2 = rest)) :=
  ⟨rfl, human_input_transition wCb wHumanSession [some "hi"] rfl⟩

/-! ### Transcript counting (C4) -/

theorem agentStep_countInv (g : HandoffGraph) (stub : AgentStub)
    (cb : ObserverCallback) (s s1 : Session)
    (h : agentStep g stub cb s = .ok s1 ∨ agentStep g stub cb s = .error s1)
    (hinv : countInv s) : countInv s1 := by
  unfold countInv at hinv ⊢
  rcases hstub : stub s.current s.transcript with ⟨msg, tgt⟩
  cases tgt with
  | none =>
    simp only [agentStep, hstub] at h
    rcases h with h | h
    · cases h
      simp [appendTurn, hinv]
      omega
    · cases h
  | some t =>
    by_cases hl : legalTarget g s.current t = true
    · simp only [agentStep, hstub, hl, if_true] at h
      rcases h with h | h
      · cases h
        simp [appendTurn, hinv]
        omega
      · cases h
    · rw [Bool.not_eq_true] at hl
      simp only [agentStep, hstub, hl, Bool.false_eq_true, if_false] at h
      rcases h with h | h
      · cases h
      · cases h
        simp [appendTurn, hinv]
        omega

theorem humanStep_countInv (cb : ObserverCallback) (s : Session)
    (inputs : List (Option String)) (hinv : countInv s) :
    countInv (humanStep cb s inputs).1 := by
  unfold countInv at hinv ⊢
  cases inputs with
  | nil => simpa [humanStep]
  | cons hd rest =>
    cases hd with
    | none => simpa [humanStep]
    | some msg =>
      simp [humanStep, appendTurn, hinv]
      omega

theorem run_countInv (g : HandoffGraph) (stub : AgentStub)
    (cb : ObserverCallback) :
    ∀ (fuel : Nat) (s : Session) (inputs : List (Option String)),
      countInv s → countInv (run g stub cb fuel s inputs).session := by
  intro fuel
  induction fuel with
  | zero =>
    intro s inputs h
    simpa [run, RunResult.session]
  | succ n ih =>
    intro s inputs h
    rw [run]
    cases hls : s.loopState with
    | terminated => simpa [RunResult.session]
    | awaitingAgentResponse =>
      cases hstep : agentStep g stub cb s with
      | error s1 =>
        simpa [RunResult.session] using
          agentStep_countInv g stub cb s s1 (Or.inr hstep) h
      | ok s1 =>
        exact ih s1 inputs (agentStep_countInv g stub cb s s1 (Or.inl hstep) h)
    | awaitingHumanInput =>
      exact ih _ _ (humanStep_countInv cb s inputs h)

/-- C4: for a terminated run started from the initial session, the number of
turns in the final transcript equals the number of agent responses produced
plus the number of human inputs actually consumed (each is appended to the
transcript when produced, so none is skipped). -/
theorem transcript_count_eq (g : HandoffGraph) (stub : AgentStub)
    (cb : ObserverCallback) (fuel : Nat) (entry : String)
    (inputs : List (Option String)) (s1 : Session)
    (h : run g stub cb fuel (initSession entry) inputs = .finished s1) :
    s1.transcript.length = s1.nAgentResponses + s1.nHumanInputs := by
  have hinv := run_countInv g stub cb fuel (initSession entry) inputs
    (by simp [countInv, initSession])
  rw [h] at hinv
  exact hinv


theorem transcript_count_eq_witness :
    run wGraph wStub wCb 4 (initSession "A") [] = .finished wFinal ∧
    wFinal.transcript.length = wFinal.nAgentResponses + wFinal.nHumanInputs :=
  ⟨by decide,
   transcript_count_eq wGraph wStub wCb 4 "A" [] wFinal (by decide)⟩

/-- C7: the turn loop is deterministic — two runs over the same graph, the
same deterministic agent stub, the same callback and the same fixed finite
input sequence produce identical transcripts. -/
theorem replay_idempotent (g : HandoffGraph) (stub : AgentStub)
    (cb : ObserverCallback) (fuel : Nat) (entry : String)
    (inputs : List (Option String)) (r1 r2 : RunResult)
    (h1 : r1 = run g stub cb fuel (initSession entry) inputs)
    (h2 : r2 = run g stub cb fuel (initSession entry) inputs) :
    r1.transcript = r2.transcript := by
  rw [h1, h2]

theorem replay_idempotent_witness :
    (run wGraph wStub wCb 4 (initSession "A") [] =
      run wGraph wStub wCb 4 (initSession "A") []) ∧
    (run wGraph wStub wCb 4 (initSession "A") []).transcript =
      (run wGraph wStub wCb 4 (initSession "A") []).transcript :=
  ⟨rfl,
   replay_idempotent wGraph wStub wCb 4 "A" []
     (run wGraph wStub wCb 4 (initSession "A") [])
     (run wGraph wStub wCb 4 (initSession "A") []) rfl rfl⟩

/-! ### Observer callback (C8) -/

theorem agentStep_cbInv (g : HandoffGraph) (stub : AgentStub)
    (cb : ObserverCallback) (s s1 : Session)
    (h : agentStep g stub cb s = .ok s1 ∨ agentStep g stub cb s = .error s1)
    (hinv : cbInv cb s) : cbInv cb s1 := by
  unfold cbInv at hinv ⊢
  rcases hstub : stub s.current s.transcript with ⟨msg, tgt⟩
  cases tgt with
  | none =>
    simp only [agentStep, hstub] at h
    rcases h with h | h
    · cases h
      simp [appendTurn, hinv]
    · cases h
  | some t =>
    by_cases hl : legalTarget g s.current t = true
    · simp only [agentStep, hstub, hl, if_true] at h
      rcases h with h | h
      · cases h
        simp [appendTurn, hinv]
      · cases h
    · rw [Bool.not_eq_true] at hl
      simp only [agentStep, hstub, hl, Bool.false_eq_true, if_false] at h
      rcases h with h | h
      · cases h
      · cases h
        simp [appendTurn, hinv]

theorem humanStep_cbInv (cb : ObserverCallback) (s : Session)
    (inputs : List (Option String)) (hinv : cbInv cb s) :
    cbInv cb (humanStep cb s inputs).1 := by
  unfold cbInv at hinv ⊢
  cases inputs with
  | nil => simpa [humanStep]
  | cons hd rest =>
    cases hd with
    | none => simpa [humanStep]
    | some msg => simp [humanStep, appendTurn, hinv]

theorem run_cbInv (g : HandoffGraph) (stub : AgentStub)
    (cb : ObserverCallback) :
    ∀ (fuel : Nat) (s : Session) (inputs : List (Option String)),
      cbInv cb s → cbInv cb (run g stub cb fuel s inputs).session := by
  intro fuel
  induction fuel with
  | zero =>
    intro s inputs h
    simpa [run, RunResult.session]
  | succ n ih =>
    intro s inputs h
    rw [run]
    cases hls : s.loopState with
    | terminated => simpa [RunResult.session]
    | awaitingAgentResponse =>
      cases hstep : agentStep g stub cb s with
      | error s1 =>
        simpa [RunResult.session] using
          agentStep_cbInv g stub cb s s1 (Or.inr hstep) h
      | ok s1 =>
        exact ih s1 inputs (agentStep_cbInv g stub cb s s1 (Or.inl hstep) h)
    | awaitingHumanInput =>
      exact ih _ _ (humanStep_cbInv cb s inputs h)

theorem agentStep_dropCb (g : HandoffGraph) (stub : AgentStub)
    (cb cb' : ObserverCallback) (s s' : Session) (h : s.dropCb = s'.dropCb) :
    exceptDropCb (agentStep g stub cb s) =
      exceptDropCb (agentStep g stub cb' s') := by
  cases s with
  | mk c t l na nh cr =>
  cases s' with
  | mk c2 t2 l2 na2 nh2 cr2 =>
  simp only [Session.dropCb, Session.mk.injEq] at h
  obtain ⟨hc, ht, hl, hna, hnh, -⟩ := h
  subst hc; subst ht; subst hl; subst hna; subst hnh
  simp only [agentStep, appendTurn]
  rcases hstub : stub c t with ⟨msg, tgt⟩
  cases tgt with
  | none => simp [exceptDropCb, Session.dropCb]
  | some tn =>
    by_cases hleg : legalTarget g c tn = true
    · simp [hleg, exceptDropCb, Session.dropCb]
    · rw [Bool.not_eq_true] at hleg
      simp [hleg, exceptDropCb, Session.dropCb]

theorem humanStep_dropCb (cb cb' : ObserverCallback) (s s' : Session)
    (inputs : List (Option String)) (h : s.dropCb = s'.dropCb) :
    (humanStep cb s inputs).1.dropCb = (humanStep cb' s' inputs).1.dropCb ∧
    (humanStep cb s inputs).2 = (humanStep cb' s' inputs).2 := by
  cases s with
  | mk c t l na nh cr =>
  cases s' with
  | mk c2 t2 l2 na2 nh2 cr2 =>
  simp only [Session.dropCb, Session.mk.injEq] at h
  obtain ⟨hc, ht, hl, hna, hnh, -⟩ := h
  subst hc; subst ht; subst hl; subst hna; subst hnh
  cases inputs with
  | nil => exact ⟨by simp [humanStep, Session.dropCb], rfl⟩
  | cons hd rest =>
    cases hd with
    | none => exact ⟨by simp [humanStep, Session.dropCb], rfl⟩
    | some msg => exact ⟨by simp [humanStep, appendTurn, Session.dropCb], rfl⟩

theorem dropCb_loopState (s s' : Session) (h : s.dropCb = s'.dropCb) :
    s.loopState = s'.loopState := by
  cases s with
  | mk c t l na nh cr =>
  cases s' with
  | mk c2 t2 l2 na2 nh2 cr2 =>
  simp only [Session.dropCb, Session.mk.injEq] at h
  exact h.2.2.1

theorem run_dropCb (g : HandoffGraph) (stub : AgentStub) :
    ∀ (fuel : Nat) (cb cb' : ObserverCallback) (s s' : Session)
      (inputs : List (Option String)), s.dropCb = s'.dropCb →
      (run g stub cb fuel s inputs).dropCb =
        (run g stub cb' fuel s' inputs).dropCb := by
  intro fuel
  induction fuel with
  | zero =>
    intro cb cb' s s' inputs h
    simp [run, RunResult.dropCb, h]
  | succ n ih =>
    intro cb cb' s s' inputs h
    have hls : s.loopState = s'.loopState := dropCb_loopState s s' h
    rw [run, run, ← hls]
    have hstep := agentStep_dropCb g stub cb cb' s s' h
    have hhum := humanStep_dropCb cb cb' s s' inputs h
    cases s.loopState with
    | terminated => simp [RunResult.dropCb, h]
    | awaitingAgentResponse =>
      cases h1 : agentStep g stub cb s with
      | error s1 =>
        cases h2 : agentStep g stub cb' s' with
        | error s1' =>
          rw [h1, h2] at hstep
          simp only [exceptDropCb, Except.error.injEq] at hstep
          simp [RunResult.dropCb, hstep]
        | ok s1' =>
          rw [h1, h2] at hstep
          simp [exceptDropCb] at hstep
      | ok s1 =>
        cases h2 : agentStep g stub cb' s' with
        | error s1' =>
          rw [h1, h2] at hstep
          simp [exceptDropCb] at hstep
        | ok s1' =>
          rw [h1, h2] at hstep
          simp only [exceptDropCb, Except.ok.injEq] at hstep
          exact ih cb cb' s1 s1' inputs hstep
    | awaitingHumanInput =>
      show (run g stub cb n (humanStep cb s inputs).1
          (humanStep cb s inputs).2).dropCb =
        (run g stub cb' n (humanStep cb' s' inputs).1
          (humanStep cb' s' inputs).2).dropCb
      rw [hhum.2]
      exact ih cb cb' _ _ _ hhum.1

/-- C8: the observer callback is invoked exactly once per appended
transcript turn, in turn order, with (speaker, text) — its recorded results
are exactly the map of the callback over the final transcript — and the
run's progression (current agent, transcript, state, counters, outcome) is
identical for any two callbacks, in particular for a failing and a
succeeding one: callback failures never affect the session. -/
theorem observer_callback_spec (g : HandoffGraph) (stub : AgentStub)
    (fuel : Nat) (entry : String) (inputs : List (Option String)) :
    (∀ cb : ObserverCallback,
      ((run g stub cb fuel (initSession entry) inputs).session).cbResults =
        ((run g stub cb fuel (initSession entry) inputs).session).transcript.map
          (fun t => cb t.speaker t.text)) ∧
    (∀ cb cb' : ObserverCallback,
      (run g stub cb fuel (initSession entry) inputs).dropCb =
        (run g stub cb' fuel (initSession entry) inputs).dropCb) := by
  constructor
  · intro cb
    exact run_cbInv g stub cb fuel (initSession entry) inputs
      (by simp [cbInv, initSession])
  · intro cb cb'
    exact run_dropCb g stub fuel cb cb' (initSession entry) (initSession entry)
      inputs rfl
